import Mathlib

/-!
# Verification of the LEOS S26 flight-computer telemetry downlink

A shallow embedding of the repository's telemetry packet codec
(`packet.py`) and of the cache/bridge/publisher logic of
`publishRadio.py`, together with proofs of the specification's claims.

Modelling conventions:
* byte strings are `List ℕ` with every entry below 256;
* Python `int` is `ℤ`, Python `float` is `ℚ` (exact rational arithmetic;
  Python's banker's `round` becomes `pyRound`, `int(...)` truncation
  becomes `ratTrunc`);
* Python exceptions become explicit result constructors: `ValueError`
  raised by `decode_packet` becomes `DecodeResult.invalidInput` with its
  message, the `struct.error` that `struct.unpack_from` raises on an
  out-of-bounds read becomes `DecodeResult.structError`;
* the running `offset` cursor of `decode_packet` is modelled by walking
  the suffix `frame.drop 12`, which reads exactly the same bytes as
  `struct.unpack_from(fmt, frame, offset)` does;
* `time.time()` is an explicit parameter of `build_from_latest`.
-/

namespace LeosFC

/-! ## Little-endian byte marshalling (`struct.pack`/`unpack` fragments) -/

/-- Bytes of `struct.pack("<H", n)` for `0 ≤ n < 2^16`. -/
def le16 (n : ℕ) : List ℕ := [n % 256, n / 256 % 256]

/-- Bytes of `struct.pack("<I", n)` for `0 ≤ n < 2^32`. -/
def le32 (n : ℕ) : List ℕ :=
  [n % 256, n / 256 % 256, n / 65536 % 256, n / 16777216 % 256]

/-- Little-endian value of a byte list (what `struct.unpack` returns). -/
def leVal : List ℕ → ℕ
  | [] => 0
  | b :: rest => b + 256 * leVal rest

/-- Bytes of `struct.pack("<h", z)` for `-2^15 ≤ z ≤ 2^15 - 1`:
two's-complement little-endian. -/
def packI16 (z : ℤ) : List ℕ := le16 (z % 65536).toNat

/-- Signed reinterpretation performed by `struct.unpack("<h", ...)` of the
unsigned little-endian value `u`. -/
def sval (u : ℕ) : ℤ := if u < 32768 then (u : ℤ) else (u : ℤ) - 65536

/-! ## Python numeric primitives -/

/-- Python 3 `round` to the nearest integer, ties to even (on the exact
rational value). -/
def pyRound (q : ℚ) : ℤ :=
  if Int.fract q < 1 / 2 then ⌊q⌋
  else if 1 / 2 < Int.fract q then ⌊q⌋ + 1
  else if ⌊q⌋ % 2 = 0 then ⌊q⌋ else ⌊q⌋ + 1

/-- Python `int(...)` on a number: truncation toward zero. -/
def ratTrunc (q : ℚ) : ℤ := if 0 ≤ q then ⌊q⌋ else ⌈q⌉

/-! ## `packet.py`: constants and helpers -/

def MAGIC : List ℕ := [0xAA, 0x55]
def VERSION : ℕ := 1
def MSGTYPE_TELEMETRY : ℕ := 1

def F_TEMP : ℕ := 1
def F_PRESSURE : ℕ := 2
def F_AIR_PM25 : ℕ := 4
def F_AIR_AQI25 : ℕ := 8
def F_UV : ℕ := 16

/-- One shift of the register: the inner-loop body of `crc16_ccitt_false`. -/
def crcShift (crc : ℕ) : ℕ :=
  if crc &&& 0x8000 ≠ 0 then ((crc <<< 1) ^^^ 0x1021) &&& 0xFFFF
  else (crc <<< 1) &&& 0xFFFF

/-- Folding one data byte into the register: the outer-loop body of
`crc16_ccitt_false`. -/
def crcByte (crc b : ℕ) : ℕ := crcShift^[8] (crc ^^^ ((b <<< 8) &&& 0xFFFF))

/-- The function `crc16_ccitt_false(data)` from `packet.py`. -/
def crc16_ccitt_false (data : List ℕ) : ℕ := data.foldl crcByte 0xFFFF

/-- The helper `_clamp_u16` from `packet.py`. -/
def clamp_u16 (x : ℤ) : ℤ := if x < 0 then 0 else if x > 65535 then 65535 else x

/-- The helper `_clamp_u32` from `packet.py`. -/
def clamp_u32 (x : ℤ) : ℤ :=
  if x < 0 then 0 else if x > 0xFFFFFFFF then 0xFFFFFFFF else x

/-- The helper `_clamp_i16` from `packet.py`. -/
def clamp_i16 (x : ℤ) : ℤ :=
  if x < -32768 then -32768 else if x > 32767 then 32767 else x

/-! ## `packet.py`: the `TelemetryPacket` dataclass and `encode` -/

/-- The `TelemetryPacket` dataclass.  The three nominally-integer readings
are stored as `ℚ` because Python is dynamically typed and the bridge in
`publishRadio.py` stores the raw (float) Pascal value in the cache that
feeds `encode`; `encode` itself applies `int(...)` to them. -/
structure TelemetryPacket where
  seq : ℤ
  unix_s : ℤ
  temp_c : Option ℚ := none
  pressure_pa : Option ℚ := none
  pm25_env : Option ℚ := none
  aqi_pm25_us : Option ℚ := none
  uv_uvi : Option ℚ := none
deriving DecidableEq

/-- Payload bytes contributed by `temp_c` in `encode`
(`struct.pack("<h", _clamp_i16(int(round(temp_c * 100.0))))`). -/
def tempChunk : Option ℚ → List ℕ
  | none => []
  | some t => packI16 (clamp_i16 (pyRound (t * 100)))

/-- Payload bytes contributed by one of the three `uint32` readings in
`encode` (`struct.pack("<I", _clamp_u32(int(x)))`). -/
def u32Chunk : Option ℚ → List ℕ
  | none => []
  | some x => le32 (clamp_u32 (ratTrunc x)).toNat

/-- Payload bytes contributed by `uv_uvi` in `encode`
(`struct.pack("<H", _clamp_u16(int(round(uv_uvi * 100.0))))`). -/
def uvChunk : Option ℚ → List ℕ
  | none => []
  | some u => le16 (clamp_u16 (pyRound (u * 100))).toNat

/-- The `flags` bitmask accumulated by `encode` (`flags |= F_...` for each
present field). -/
def flagsOf (p : TelemetryPacket) : ℕ :=
  ((((0 ||| (if p.temp_c.isSome then F_TEMP else 0))
      ||| (if p.pressure_pa.isSome then F_PRESSURE else 0))
      ||| (if p.pm25_env.isSome then F_AIR_PM25 else 0))
      ||| (if p.aqi_pm25_us.isSome then F_AIR_AQI25 else 0))
      ||| (if p.uv_uvi.isSome then F_UV else 0)

/-- The payload built by `encode`: present fields in the fixed order. -/
def payloadBytes (p : TelemetryPacket) : List ℕ :=
  tempChunk p.temp_c ++ u32Chunk p.pressure_pa ++ u32Chunk p.pm25_env
    ++ u32Chunk p.aqi_pm25_us ++ uvChunk p.uv_uvi

/-- The 10-byte header built by `encode`:
`struct.pack("<BBH I H", VERSION, MSGTYPE_TELEMETRY, seq & 0xFFFF,
_clamp_u32(unix_s), flags & 0xFFFF)`. -/
def headerBytes (p : TelemetryPacket) : List ℕ :=
  VERSION :: MSGTYPE_TELEMETRY ::
    (le16 (p.seq % 65536).toNat ++ le32 (clamp_u32 p.unix_s).toNat
      ++ le16 (flagsOf p &&& 0xFFFF))

/-- The method `TelemetryPacket.encode` from `packet.py`:
`MAGIC + header + payload + struct.pack("<H", crc)`. -/
def TelemetryPacket.encode (p : TelemetryPacket) : List ℕ :=
  MAGIC ++ headerBytes p ++ payloadBytes p
    ++ le16 (crc16_ccitt_false (headerBytes p ++ payloadBytes p))

/-! ## `packet.py`: `decode_packet` -/

/-- The field-name-to-value dict returned by `decode_packet`: one optional
entry per flag bit (`temp_c`/`uv_uvi` divided by 100.0, the three `uint32`
fields raw). -/
structure DecodedFields where
  temp_c : Option ℚ := none
  pressure_pa : Option ℕ := none
  pm25_env : Option ℕ := none
  aqi_pm25_us : Option ℕ := none
  uv_uvi : Option ℚ := none
deriving DecidableEq

/-- Result of `decode_packet`: a normal return, a `ValueError` with its
message, or the `struct.error` that an out-of-range `unpack_from` raises. -/
inductive DecodeResult where
  | ok (pkt : TelemetryPacket) (fields : DecodedFields)
  | invalidInput (msg : String)
  | structError
deriving DecidableEq

/-- The inner `take(fmt)` helper of `decode_packet`, acting on the
not-yet-consumed suffix of the frame: `struct.unpack_from` reads `k` bytes
at the cursor if they exist (`struct.error` otherwise, modelled as `none`)
and advances the cursor. -/
def takeLE (k : ℕ) (rest : List ℕ) : Option (ℕ × List ℕ) :=
  if k ≤ rest.length then some (leVal (rest.take k), rest.drop k) else none

/-- One `if flags & F_X:` block of `decode_packet`'s field phase: when the
bit is set, consume the field's bytes (possibly failing); otherwise leave
the cursor alone. -/
def readField (bit k : ℕ) (rest : List ℕ) : Option (Option ℕ × List ℕ) :=
  if bit ≠ 0 then (takeLE k rest).map (fun vr => (some vr.1, vr.2))
  else some (none, rest)

/-- The field phase of `decode_packet`: the five `if flags & F_X:` blocks
in source order, starting at offset 12 (`rest = frame.drop 12`). -/
def decodeFields (flags : ℕ) (rest : List ℕ) : Option DecodedFields :=
  match readField (flags &&& F_TEMP) 2 rest with
  | none => none
  | some (t, r1) =>
    match readField (flags &&& F_PRESSURE) 4 r1 with
    | none => none
    | some (pr, r2) =>
      match readField (flags &&& F_AIR_PM25) 4 r2 with
      | none => none
      | some (pm, r3) =>
        match readField (flags &&& F_AIR_AQI25) 4 r3 with
        | none => none
        | some (aq, r4) =>
          match readField (flags &&& F_UV) 2 r4 with
          | none => none
          | some (uv, _) =>
            some { temp_c := t.map (fun v => ((sval v : ℚ) / 100)),
                   pressure_pa := pr,
                   pm25_env := pm,
                   aqi_pm25_us := aq,
                   uv_uvi := uv.map (fun (v : ℕ) => ((v : ℚ) / 100)) }

/-- The function `decode_packet(frame)` from `packet.py`.  The header reads mirror
`struct.unpack_from("<BBH I H", frame, 2)` and
`struct.unpack_from("<H", frame, len(frame) - 2)`; the body is
`frame[2:-2]`. -/
def decode_packet (frame : List ℕ) : DecodeResult :=
  if frame.length < 2 + 1 + 1 + 2 + 4 + 2 + 2 then .invalidInput "frame too short"
  else if frame.take 2 ≠ MAGIC then .invalidInput "bad magic"
  else
    let ver := frame.getD 2 0
    let mtype := frame.getD 3 0
    let seq := leVal ((frame.drop 4).take 2)
    let unix_s := leVal ((frame.drop 6).take 4)
    let flags := leVal ((frame.drop 10).take 2)
    if ver ≠ VERSION then .invalidInput "unsupported version"
    else if mtype ≠ MSGTYPE_TELEMETRY then .invalidInput "unsupported msg type"
    else
      let crc_given := leVal (frame.drop (frame.length - 2))
      let body := (frame.take (frame.length - 2)).drop 2
      if crc16_ccitt_false body ≠ crc_given then .invalidInput "crc mismatch"
      else
        match decodeFields flags (frame.drop 12) with
        | none => .structError
        | some fields => .ok { seq := (seq : ℤ), unix_s := (unix_s : ℤ) } fields

/-- The function `build_from_latest` from `packet.py`; `now` stands for
`int(time.time())`. -/
def build_from_latest (seq : ℤ) (now : ℤ) (temp_c : Option ℚ)
    (pressure_pa : Option ℚ) (air_pm25_env : Option ℚ)
    (air_aqi_pm25_us : Option ℚ) (uv_uvi : Option ℚ) : List ℕ :=
  TelemetryPacket.encode
    { seq := seq, unix_s := now, temp_c := temp_c, pressure_pa := pressure_pa,
      pm25_env := air_pm25_env, aqi_pm25_us := air_aqi_pm25_us,
      uv_uvi := uv_uvi }

/-! ## `publishRadio.py`: cache, bridge steps, publisher -/

/-- The `Latest` cache from `publishRadio.py`: all five fields start
absent. -/
structure Latest where
  temp_c : Option ℚ := none
  pressure_pa : Option ℚ := none
  air_pm25_env : Option ℚ := none
  air_aqi_pm25_us : Option ℚ := none
  uv_uvi : Option ℚ := none
deriving DecidableEq

/-- One iteration of `run_temp` in `subscribe_loop`:
`latest.temp_c = msg.temperature.kelvin - 273.15`. -/
def run_temp_step (latest : Latest) (kelvin : ℚ) : Latest :=
  { latest with temp_c := some (kelvin - 27315 / 100) }

/-- One iteration of `run_pressure` in `subscribe_loop`:
`latest.pressure_pa = msg.pressure.pascal` (stored as received, with no
`int(...)` around it). -/
def run_pressure_step (latest : Latest) (pascal : ℚ) : Latest :=
  { latest with pressure_pa := some pascal }

/-- One iteration of `run_air` in `subscribe_loop`:
`latest.air_pm25_env = int(msg.pm25_env)`;
`latest.air_aqi_pm25_us = int(msg.aqi_pm25_us)`. -/
def run_air_step (latest : Latest) (pm25_env aqi_pm25_us : ℚ) : Latest :=
  { latest with air_pm25_env := some ((ratTrunc pm25_env : ℤ) : ℚ),
                air_aqi_pm25_us := some ((ratTrunc aqi_pm25_us : ℤ) : ℚ) }

/-- One iteration of `run_uv` in `subscribe_loop`:
`latest.uv_uvi = float(msg.uvi)` (`float` on an exact numeric value is the
identity). -/
def run_uv_step (latest : Latest) (uvi : ℚ) : Latest :=
  { latest with uv_uvi := some uvi }

/-- The sequence counter of `radio_publish_loop`: `seq = 0` before the
loop, and `seq = (seq + 1) & 0xFFFF` at the top of each cycle, so
`seqAt n` is the counter value used for the `n`-th transmitted frame
(`n ≥ 1`; `seqAt 0` is the initial value). -/
def seqAt : ℕ → ℕ
  | 0 => 0
  | n + 1 => (seqAt n + 1) &&& 0xFFFF

/-- The frame handed to `radio.send` on the `n`-th cycle of
`radio_publish_loop` (`n ≥ 1`), with the cache contents and the wall
clock at each cycle given as oracles. -/
def publishedFrame (cache : ℕ → Latest) (now : ℕ → ℤ) (n : ℕ) : List ℕ :=
  build_from_latest ((seqAt n : ℕ) : ℤ) (now n) (cache n).temp_c
    (cache n).pressure_pa (cache n).air_pm25_env (cache n).air_aqi_pm25_us
    (cache n).uv_uvi

/-! ## Spec-side definitions (for refinement-style claims) -/

/-- CRC-16/CCITT-FALSE as worded in the spec: initial register `0xFFFF`;
per byte, XOR the byte into the high 8 bits, then eight times shift left
(XORing `0x1021` when the top bit was set), masked to 16 bits.  Written
with `testBit`/`* 2`/`% 65536` instead of the source's masks and shifts,
to be compared with `crc16_ccitt_false`. -/
def crcSpecShift (c : ℕ) : ℕ :=
  if c.testBit 15 then ((c * 2) ^^^ 4129) % 65536 else (c * 2) % 65536

/-- Iterate `crcSpecShift` a given number of times. -/
def crcSpecRounds : ℕ → ℕ → ℕ
  | 0, c => c
  | n + 1, c => crcSpecRounds n (crcSpecShift c)

/-- Accumulator form of the spec's CRC description. -/
def crcSpecAux : ℕ → List ℕ → ℕ
  | c, [] => c
  | c, b :: rest => crcSpecAux (crcSpecRounds 8 (c ^^^ b * 256 % 65536)) rest

/-- The spec's description of the checksum, as a whole. -/
def crcSpec (data : List ℕ) : ℕ := crcSpecAux 65535 data

/-- Does `decode_packet` raise `ValueError` (the Invalid-Input condition)? -/
def isInvalidInput : DecodeResult → Bool
  | .invalidInput _ => true
  | _ => false

/-- Does `decode_packet` return normally? -/
def isOk : DecodeResult → Bool
  | .ok _ _ => true
  | _ => false

/-- Claim C2 as stated, instantiated at one frame: the five checks in
order with a minimum length of 13 bytes, raising the first violated
check's reason and raising nothing when all five pass. -/
def c2ClaimAt (f : List ℕ) : Bool :=
  if f.length < 13 then decode_packet f == .invalidInput "frame too short"
  else if f.take 2 ≠ MAGIC then decode_packet f == .invalidInput "bad magic"
  else if f.getD 2 0 ≠ VERSION then decode_packet f == .invalidInput "unsupported version"
  else if f.getD 3 0 ≠ MSGTYPE_TELEMETRY then
    decode_packet f == .invalidInput "unsupported msg type"
  else if crc16_ccitt_false ((f.take (f.length - 2)).drop 2)
      ≠ leVal (f.drop (f.length - 2)) then
    decode_packet f == .invalidInput "crc mismatch"
  else isOk (decode_packet f)

/-! ## Concrete frames and packets used as test vectors -/

/-- A 9-byte body (version, type, seq, timestamp, one flag byte) for a
13-byte frame whose trailing two bytes are a valid checksum of the body. -/
def c2Body9 : List ℕ := [1, 1, 0, 0, 0, 0, 0, 0, 0]

/-- A 13-byte frame with good magic, version, type and checksum. -/
def c2Frame13 : List ℕ := MAGIC ++ c2Body9 ++ le16 (crc16_ccitt_false c2Body9)

/-- A 10-byte header-only body whose flags word claims a temperature
field, with no payload behind it. -/
def c10BodyA : List ℕ := [1, 1, 0, 0, 0, 0, 0, 0, 1, 0]

/-- A 14-byte frame that passes every validation of `decode_packet` but
whose flags promise a 2-byte temperature field the frame does not carry:
field decoding reads the checksum bytes as data. -/
def c10FrameA : List ℕ := MAGIC ++ c10BodyA ++ le16 (crc16_ccitt_false c10BodyA)

/-- A 10-byte header-only body whose flags word claims a pressure field
(4 bytes) with only the 2 checksum bytes behind it. -/
def c10BodyB : List ℕ := [1, 1, 0, 0, 0, 0, 0, 0, 2, 0]

/-- A 14-byte frame that passes every validation but makes field decoding
read past the end of the frame. -/
def c10FrameB : List ℕ := MAGIC ++ c10BodyB ++ le16 (crc16_ccitt_false c10BodyB)

/-- The end-to-end example packet of the spec (`seq=7`, `temp_c=20.0`,
`pressure_pa=101325`, `pm25_env=12`, `aqi_pm25_us=45`, `uv_uvi=3.2`). -/
def samplePacket : TelemetryPacket :=
  { seq := 7, unix_s := 1700000000, temp_c := some 20,
    pressure_pa := some 101325, pm25_env := some 12, aqi_pm25_us := some 45,
    uv_uvi := some (16 / 5) }

/-- The encoded frame of `samplePacket`. -/
def sampleFrame : List ℕ := samplePacket.encode

/-! ## Byte-marshalling lemmas -/

@[simp] theorem leVal_nil : leVal [] = 0 := rfl

@[simp] theorem leVal_cons (b : ℕ) (l : List ℕ) :
    leVal (b :: l) = b + 256 * leVal l := rfl

@[simp] theorem le16_length (n : ℕ) : (le16 n).length = 2 := rfl

@[simp] theorem le32_length (n : ℕ) : (le32 n).length = 4 := rfl

theorem leVal_le16 {n : ℕ} (h : n < 65536) : leVal (le16 n) = n := by
  simp only [le16, leVal_cons, leVal_nil]
  omega

theorem leVal_le32 {n : ℕ} (h : n < 4294967296) : leVal (le32 n) = n := by
  simp only [le32, leVal_cons, leVal_nil]
  omega

theorem le16_mem_lt {n b : ℕ} (h : b ∈ le16 n) : b < 256 := by
  simp only [le16, List.mem_cons, List.not_mem_nil, or_false] at h
  rcases h with h | h <;> omega

theorem le32_mem_lt {n b : ℕ} (h : b ∈ le32 n) : b < 256 := by
  simp only [le32, List.mem_cons, List.not_mem_nil, or_false] at h
  rcases h with h | h | h | h <;> omega

/-! ## Clamp lemmas -/

theorem clamp_i16_le (x : ℤ) : clamp_i16 x ≤ 32767 := by
  unfold clamp_i16; split <;> [omega; (split <;> omega)]

theorem clamp_i16_ge (x : ℤ) : -32768 ≤ clamp_i16 x := by
  unfold clamp_i16; split <;> [omega; (split <;> omega)]

theorem clamp_i16_of_range {x : ℤ} (h1 : -32768 ≤ x) (h2 : x ≤ 32767) :
    clamp_i16 x = x := by
  unfold clamp_i16; split <;> [omega; (split <;> omega)]

theorem clamp_u16_nonneg (x : ℤ) : 0 ≤ clamp_u16 x := by
  unfold clamp_u16; split <;> [omega; (split <;> omega)]

theorem clamp_u16_le (x : ℤ) : clamp_u16 x ≤ 65535 := by
  unfold clamp_u16; split <;> [omega; (split <;> omega)]

theorem clamp_u16_of_range {x : ℤ} (h1 : 0 ≤ x) (h2 : x ≤ 65535) :
    clamp_u16 x = x := by
  unfold clamp_u16; split <;> [omega; (split <;> omega)]

theorem clamp_u32_nonneg (x : ℤ) : 0 ≤ clamp_u32 x := by
  unfold clamp_u32; split <;> [omega; (split <;> omega)]

theorem clamp_u32_le (x : ℤ) : clamp_u32 x ≤ 4294967295 := by
  unfold clamp_u32; split <;> [omega; (split <;> omega)]

theorem clamp_u32_of_range {x : ℤ} (h1 : 0 ≤ x) (h2 : x ≤ 4294967295) :
    clamp_u32 x = x := by
  unfold clamp_u32; split <;> [omega; (split <;> omega)]

theorem clamp_u16_toNat_lt (x : ℤ) : (clamp_u16 x).toNat < 65536 := by
  have := clamp_u16_le x; omega

theorem clamp_u32_toNat_lt (x : ℤ) : (clamp_u32 x).toNat < 4294967296 := by
  have := clamp_u32_le x; omega

/-! ## Signed 16-bit pack/unpack lemmas -/

@[simp] theorem packI16_length (z : ℤ) : (packI16 z).length = 2 := rfl

theorem sval_leVal_packI16 {z : ℤ} (h1 : -32768 ≤ z) (h2 : z ≤ 32767) :
    sval (leVal (packI16 z)) = z := by
  have hm : (0 : ℤ) ≤ z % 65536 := Int.emod_nonneg z (by norm_num)
  have hm2 : z % 65536 < 65536 := Int.emod_lt_of_pos z (by norm_num)
  have hcast : ((z % 65536).toNat : ℤ) = z % 65536 := Int.toNat_of_nonneg hm
  have hv : leVal (packI16 z) = (z % 65536).toNat := by
    unfold packI16
    exact leVal_le16 (by omega)
  rw [hv]; unfold sval
  split <;> omega

/-! ## pyRound lemmas -/

theorem pyRound_abs_le (q : ℚ) : |((pyRound q : ℤ) : ℚ) - q| ≤ 1 / 2 := by
  have hf0 : 0 ≤ Int.fract q := Int.fract_nonneg q
  have hf1 : Int.fract q < 1 := Int.fract_lt_one q
  have hfr : Int.fract q = q - ⌊q⌋ := rfl
  unfold pyRound
  split
  · rw [abs_le]
    refine ⟨by nlinarith, by nlinarith⟩
  · rename_i h1
    push_neg at h1
    split
    · rename_i h2
      rw [abs_le]; constructor <;> push_cast <;> nlinarith
    · rename_i h2
      push_neg at h2
      have : Int.fract q = 1 / 2 := le_antisymm h2 h1
      split <;> (rw [abs_le]; constructor <;> push_cast <;> nlinarith)

theorem pyRound_intCast (z : ℤ) : pyRound ((z : ℤ) : ℚ) = z := by
  unfold pyRound
  rw [Int.fract_intCast, Int.floor_intCast]
  norm_num

/-! ## ratTrunc lemmas -/

theorem ratTrunc_intCast (z : ℤ) : ratTrunc ((z : ℤ) : ℚ) = z := by
  unfold ratTrunc
  rw [Int.floor_intCast, Int.ceil_intCast]
  split <;> rfl

theorem ratTrunc_natCast (n : ℕ) : ratTrunc ((n : ℕ) : ℚ) = (n : ℤ) := by
  have := ratTrunc_intCast (n : ℤ)
  push_cast at this
  exact this

/-! ## CRC lemmas -/

theorem crcShift_lt (c : ℕ) : crcShift c < 65536 := by
  unfold crcShift
  split
  · have : ((c <<< 1) ^^^ 4129) &&& 65535 ≤ 65535 := Nat.and_le_right
    omega
  · have : (c <<< 1) &&& 65535 ≤ 65535 := Nat.and_le_right
    omega

theorem crcByte_lt (c b : ℕ) : crcByte c b < 65536 := by
  unfold crcByte
  rw [show (8 : ℕ) = 7 + 1 from rfl, Function.iterate_succ_apply']
  exact crcShift_lt _

theorem crc16_lt (data : List ℕ) : crc16_ccitt_false data < 65536 := by
  unfold crc16_ccitt_false
  induction data with
  | nil => norm_num
  | cons b rest ih =>
      cases rest with
      | nil => exact crcByte_lt _ _
      | cons c r =>
          simp only [List.foldl_cons] at ih ⊢
          calc List.foldl crcByte (crcByte (crcByte 65535 b) c) r
              < 65536 := by
                have : ∀ (l : List ℕ) (init : ℕ),
                    (∃ x y, init = crcByte x y) → List.foldl crcByte init l < 65536 := by
                  intro l
                  induction l with
                  | nil =>
                      rintro init ⟨x, y, rfl⟩
                      exact crcByte_lt x y
                  | cons d t iht =>
                      rintro init ⟨x, y, rfl⟩
                      exact iht _ ⟨_, _, rfl⟩
                exact this r _ ⟨_, _, rfl⟩

/-! ## Flags lemmas -/

theorem flagsOf_and_temp (p : TelemetryPacket) :
    flagsOf p &&& F_TEMP = if p.temp_c.isSome then 1 else 0 := by
  rcases p with ⟨s, u, t, pr, pm, aq, uv⟩
  cases t <;> cases pr <;> cases pm <;> cases aq <;> cases uv <;>
    (simp [flagsOf] <;> decide)

theorem flagsOf_and_pressure (p : TelemetryPacket) :
    flagsOf p &&& F_PRESSURE = if p.pressure_pa.isSome then 2 else 0 := by
  rcases p with ⟨s, u, t, pr, pm, aq, uv⟩
  cases t <;> cases pr <;> cases pm <;> cases aq <;> cases uv <;>
    (simp [flagsOf] <;> decide)

theorem flagsOf_and_pm25 (p : TelemetryPacket) :
    flagsOf p &&& F_AIR_PM25 = if p.pm25_env.isSome then 4 else 0 := by
  rcases p with ⟨s, u, t, pr, pm, aq, uv⟩
  cases t <;> cases pr <;> cases pm <;> cases aq <;> cases uv <;>
    (simp [flagsOf] <;> decide)

theorem flagsOf_and_aqi (p : TelemetryPacket) :
    flagsOf p &&& F_AIR_AQI25 = if p.aqi_pm25_us.isSome then 8 else 0 := by
  rcases p with ⟨s, u, t, pr, pm, aq, uv⟩
  cases t <;> cases pr <;> cases pm <;> cases aq <;> cases uv <;>
    (simp [flagsOf] <;> decide)

theorem flagsOf_and_uv (p : TelemetryPacket) :
    flagsOf p &&& F_UV = if p.uv_uvi.isSome then 16 else 0 := by
  rcases p with ⟨s, u, t, pr, pm, aq, uv⟩
  cases t <;> cases pr <;> cases pm <;> cases aq <;> cases uv <;>
    (simp [flagsOf] <;> decide)

theorem flagsOf_lt (p : TelemetryPacket) : flagsOf p < 65536 := by
  rcases p with ⟨s, u, t, pr, pm, aq, uv⟩
  cases t <;> cases pr <;> cases pm <;> cases aq <;> cases uv <;>
    (simp [flagsOf] <;> decide)

theorem flagsOf_mask (p : TelemetryPacket) : flagsOf p &&& 0xFFFF = flagsOf p := by
  rcases p with ⟨s, u, t, pr, pm, aq, uv⟩
  cases t <;> cases pr <;> cases pm <;> cases aq <;> cases uv <;>
    (simp [flagsOf] <;> decide)

/-! ## Chunk lemmas -/

@[simp] theorem tempChunk_none : tempChunk none = [] := rfl

@[simp] theorem u32Chunk_none : u32Chunk none = [] := rfl

@[simp] theorem uvChunk_none : uvChunk none = [] := rfl

@[simp] theorem tempChunk_some (t : ℚ) :
    tempChunk (some t) = packI16 (clamp_i16 (pyRound (t * 100))) := rfl

@[simp] theorem u32Chunk_some (x : ℚ) :
    u32Chunk (some x) = le32 (clamp_u32 (ratTrunc x)).toNat := rfl

@[simp] theorem uvChunk_some (u : ℚ) :
    uvChunk (some u) = le16 (clamp_u16 (pyRound (u * 100))).toNat := rfl

theorem tempChunk_some_length (t : ℚ) : (tempChunk (some t)).length = 2 := rfl

theorem u32Chunk_some_length (x : ℚ) : (u32Chunk (some x)).length = 4 := rfl

theorem uvChunk_some_length (u : ℚ) : (uvChunk (some u)).length = 2 := rfl

theorem payloadBytes_length (p : TelemetryPacket) :
    (payloadBytes p).length =
      (if p.temp_c.isSome then 2 else 0) + (if p.pressure_pa.isSome then 4 else 0)
        + (if p.pm25_env.isSome then 4 else 0)
        + (if p.aqi_pm25_us.isSome then 4 else 0)
        + (if p.uv_uvi.isSome then 2 else 0) := by
  rcases p with ⟨s, u, t, pr, pm, aq, uv⟩
  cases t <;> cases pr <;> cases pm <;> cases aq <;> cases uv <;>
    simp [payloadBytes, packI16]

theorem payloadBytes_length_le (p : TelemetryPacket) :
    (payloadBytes p).length ≤ 16 := by
  rw [payloadBytes_length]
  split <;> split <;> split <;> split <;> split <;> omega

/-! ## Encode structure lemmas -/

theorem headerBytes_length (p : TelemetryPacket) : (headerBytes p).length = 10 := by
  simp [headerBytes]

theorem encode_length (p : TelemetryPacket) :
    p.encode.length = 14 + (payloadBytes p).length := by
  simp [TelemetryPacket.encode, MAGIC, headerBytes]
  omega

theorem encode_take2 (p : TelemetryPacket) : p.encode.take 2 = MAGIC := by
  simp [TelemetryPacket.encode, MAGIC]

theorem encode_getD2 (p : TelemetryPacket) : p.encode.getD 2 0 = VERSION := by
  simp [TelemetryPacket.encode, MAGIC, headerBytes]

theorem encode_getD3 (p : TelemetryPacket) : p.encode.getD 3 0 = MSGTYPE_TELEMETRY := by
  simp [TelemetryPacket.encode, MAGIC, headerBytes]

theorem encode_seqBytes (p : TelemetryPacket) :
    (p.encode.drop 4).take 2 = le16 (p.seq % 65536).toNat := by
  simp [TelemetryPacket.encode, MAGIC, headerBytes, le16, le32]

theorem encode_unixBytes (p : TelemetryPacket) :
    (p.encode.drop 6).take 4 = le32 (clamp_u32 p.unix_s).toNat := by
  simp [TelemetryPacket.encode, MAGIC, headerBytes, le16, le32]

theorem encode_flagBytes (p : TelemetryPacket) :
    (p.encode.drop 10).take 2 = le16 (flagsOf p &&& 0xFFFF) := by
  simp [TelemetryPacket.encode, MAGIC, headerBytes, le16, le32]

theorem encode_drop12 (p : TelemetryPacket) :
    p.encode.drop 12 =
      payloadBytes p
        ++ le16 (crc16_ccitt_false (headerBytes p ++ payloadBytes p)) := by
  simp [TelemetryPacket.encode, MAGIC, headerBytes, le16, le32]

theorem encode_body (p : TelemetryPacket) :
    (p.encode.take (p.encode.length - 2)).drop 2 =
      headerBytes p ++ payloadBytes p := by
  have h : p.encode.take (p.encode.length - 2) = MAGIC ++ (headerBytes p ++ payloadBytes p) := by
    have hlen : (MAGIC ++ (headerBytes p ++ payloadBytes p)).length = p.encode.length - 2 := by
      simp [MAGIC, encode_length, headerBytes_length]
      omega
    calc p.encode.take (p.encode.length - 2)
        = ((MAGIC ++ (headerBytes p ++ payloadBytes p))
            ++ le16 (crc16_ccitt_false (headerBytes p ++ payloadBytes p))).take
              (p.encode.length - 2) := by
          simp [TelemetryPacket.encode]
      _ = MAGIC ++ (headerBytes p ++ payloadBytes p) := List.take_left' hlen
  rw [h]
  simp [MAGIC]

theorem encode_crcBytes (p : TelemetryPacket) :
    p.encode.drop (p.encode.length - 2) =
      le16 (crc16_ccitt_false (headerBytes p ++ payloadBytes p)) := by
  have hlen : (MAGIC ++ (headerBytes p ++ payloadBytes p)).length = p.encode.length - 2 := by
    simp [MAGIC, encode_length, headerBytes_length]
    omega
  calc p.encode.drop (p.encode.length - 2)
      = ((MAGIC ++ (headerBytes p ++ payloadBytes p))
          ++ le16 (crc16_ccitt_false (headerBytes p ++ payloadBytes p))).drop
            (p.encode.length - 2) := by
        simp [TelemetryPacket.encode]
    _ = le16 (crc16_ccitt_false (headerBytes p ++ payloadBytes p)) :=
        List.drop_left' hlen

/-! ## Field-phase lemmas -/

theorem readField_zero (k : ℕ) (rest : List ℕ) :
    readField 0 k rest = some (none, rest) := by
  simp [readField]

theorem readField_pos {bit : ℕ} (hb : bit ≠ 0) {chunk : List ℕ} {k : ℕ}
    (hk : chunk.length = k) (rest : List ℕ) :
    readField bit k (chunk ++ rest) = some (some (leVal chunk), rest) := by
  subst hk
  simp [readField, takeLE, hb, List.take_left, List.drop_left]

theorem sval_tempVal (t : ℚ) :
    sval (leVal (packI16 (clamp_i16 (pyRound (t * 100)))))
      = clamp_i16 (pyRound (t * 100)) :=
  sval_leVal_packI16 (clamp_i16_ge _) (clamp_i16_le _)

theorem leVal_u32Val (x : ℚ) :
    leVal (le32 (clamp_u32 (ratTrunc x)).toNat) = (clamp_u32 (ratTrunc x)).toNat :=
  leVal_le32 (clamp_u32_toNat_lt _)

theorem leVal_uvVal (u : ℚ) :
    leVal (le16 (clamp_u16 (pyRound (u * 100))).toNat)
      = (clamp_u16 (pyRound (u * 100))).toNat :=
  leVal_le16 (clamp_u16_toNat_lt _)

/-- The value half of the round trip: running the field phase of
`decode_packet` over the payload `encode` built (with anything behind it)
recovers each present field, clamped and rounded as `encode` stored it. -/
theorem decodeFields_payload (p : TelemetryPacket) (rest : List ℕ) :
    decodeFields (flagsOf p) (payloadBytes p ++ rest) = some
      { temp_c := p.temp_c.map
          (fun t => (((clamp_i16 (pyRound (t * 100)) : ℤ) : ℚ) / 100)),
        pressure_pa := p.pressure_pa.map (fun x => (clamp_u32 (ratTrunc x)).toNat),
        pm25_env := p.pm25_env.map (fun x => (clamp_u32 (ratTrunc x)).toNat),
        aqi_pm25_us := p.aqi_pm25_us.map (fun x => (clamp_u32 (ratTrunc x)).toNat),
        uv_uvi := p.uv_uvi.map
          (fun u => (((clamp_u16 (pyRound (u * 100))).toNat : ℚ) / 100)) } := by
  rcases p with ⟨s, un, t, pr, pm, aq, uv⟩
  cases t <;> cases pr <;> cases pm <;> cases aq <;> cases uv <;>
    simp [decodeFields, payloadBytes, flagsOf_and_temp, flagsOf_and_pressure,
      flagsOf_and_pm25, flagsOf_and_aqi, flagsOf_and_uv, readField_zero,
      readField_pos, sval_tempVal, leVal_u32Val, leVal_uvVal,
      List.append_assoc]

/-- Full round trip at the `decode_packet` level. -/
theorem decode_encode (p : TelemetryPacket) :
    decode_packet p.encode = .ok
      { seq := p.seq % 65536, unix_s := clamp_u32 p.unix_s }
      { temp_c := p.temp_c.map
          (fun t => (((clamp_i16 (pyRound (t * 100)) : ℤ) : ℚ) / 100)),
        pressure_pa := p.pressure_pa.map (fun x => (clamp_u32 (ratTrunc x)).toNat),
        pm25_env := p.pm25_env.map (fun x => (clamp_u32 (ratTrunc x)).toNat),
        aqi_pm25_us := p.aqi_pm25_us.map (fun x => (clamp_u32 (ratTrunc x)).toNat),
        uv_uvi := p.uv_uvi.map
          (fun u => (((clamp_u16 (pyRound (u * 100))).toNat : ℚ) / 100)) } := by
  have hlen := encode_length p
  have h14 : ¬ (p.encode.length < 2 + 1 + 1 + 2 + 4 + 2 + 2) := by omega
  have hseq0 : (0 : ℤ) ≤ p.seq % 65536 := Int.emod_nonneg _ (by norm_num)
  have hseq1 : p.seq % 65536 < 65536 := Int.emod_lt_of_pos _ (by norm_num)
  have hseqlt : (p.seq % 65536).toNat < 65536 := by omega
  have hflagslt : flagsOf p &&& 0xFFFF < 65536 := by
    have : flagsOf p &&& 0xFFFF ≤ 0xFFFF := Nat.and_le_right
    omega
  unfold decode_packet
  rw [if_neg h14]
  rw [encode_take2, if_neg (by simp)]
  simp only [encode_getD2, encode_getD3, encode_seqBytes, encode_unixBytes,
    encode_flagBytes, encode_drop12, encode_body, encode_crcBytes]
  rw [leVal_le16 hseqlt, leVal_le32 (clamp_u32_toNat_lt _),
    leVal_le16 hflagslt, leVal_le16 (crc16_lt _), flagsOf_mask]
  rw [if_neg (by simp [VERSION]), if_neg (by simp [MSGTYPE_TELEMETRY]),
    if_neg (by simp)]
  rw [decodeFields_payload]
  have hs : (((p.seq % 65536).toNat : ℤ)) = p.seq % 65536 := Int.toNat_of_nonneg hseq0
  have hu : (((clamp_u32 p.unix_s).toNat : ℤ)) = clamp_u32 p.unix_s :=
    Int.toNat_of_nonneg (clamp_u32_nonneg _)
  simp [hs, hu]

/-- Dividing a fixed-point x100 value back by 100 keeps it within 0.01 of
the original when the rounding error was at most one half. -/
theorem div100_abs_le {z : ℤ} {q : ℚ} (h : |((z : ℤ) : ℚ) - q * 100| ≤ 1 / 2) :
    |(z : ℚ) / 100 - q| ≤ 1 / 100 := by
  have h100 : (0 : ℚ) < 100 := by norm_num
  rw [show (z : ℚ) / 100 - q = ((z : ℚ) - q * 100) / 100 by ring, abs_div,
    abs_of_pos h100, div_le_iff₀ h100]
  nlinarith [abs_nonneg (((z : ℤ) : ℚ) - q * 100)]

/-! ## Claim theorems -/

/-- C1 (confirmed). Round trip: for every `TelemetryPacket` whose
present optional readings are in-range (temperature and UV round into
their fixed-point ranges; the three integer readings are integral and fit
in 32 bits), `decode_packet (encode pkt)` returns normally with (a) a
record whose `seq` is `pkt.seq` modulo 65536 and whose `unix_s` is
`pkt.unix_s` clamped to `[0, 4294967295]`, and (b) a field mapping
populated for exactly the fields present in `pkt`, recovering
`pressure_pa`, `pm25_env`, `aqi_pm25_us` exactly and `temp_c`, `uv_uvi`
within 0.01. -/
theorem leos_c1_roundtrip (p : TelemetryPacket)
    (ht : ∀ t ∈ p.temp_c, -32768 ≤ pyRound (t * 100) ∧ pyRound (t * 100) ≤ 32767)
    (hp : ∀ x ∈ p.pressure_pa, ∃ n : ℕ, x = (n : ℚ) ∧ n < 4294967296)
    (hm : ∀ x ∈ p.pm25_env, ∃ n : ℕ, x = (n : ℚ) ∧ n < 4294967296)
    (ha : ∀ x ∈ p.aqi_pm25_us, ∃ n : ℕ, x = (n : ℚ) ∧ n < 4294967296)
    (hu : ∀ u ∈ p.uv_uvi, 0 ≤ pyRound (u * 100) ∧ pyRound (u * 100) ≤ 65535) :
    ∃ flds : DecodedFields,
      decode_packet p.encode =
        .ok { seq := p.seq % 65536, unix_s := clamp_u32 p.unix_s } flds ∧
      flds.temp_c.isSome = p.temp_c.isSome ∧
      flds.pressure_pa.isSome = p.pressure_pa.isSome ∧
      flds.pm25_env.isSome = p.pm25_env.isSome ∧
      flds.aqi_pm25_us.isSome = p.aqi_pm25_us.isSome ∧
      flds.uv_uvi.isSome = p.uv_uvi.isSome ∧
      (∀ t ∈ p.temp_c, ∃ d, flds.temp_c = some d ∧ |d - t| ≤ 1 / 100) ∧
      (∀ x ∈ p.pressure_pa, flds.pressure_pa.map (fun n => ((n : ℕ) : ℚ)) = some x) ∧
      (∀ x ∈ p.pm25_env, flds.pm25_env.map (fun n => ((n : ℕ) : ℚ)) = some x) ∧
      (∀ x ∈ p.aqi_pm25_us, flds.aqi_pm25_us.map (fun n => ((n : ℕ) : ℚ)) = some x) ∧
      (∀ u ∈ p.uv_uvi, ∃ d, flds.uv_uvi = some d ∧ |d - u| ≤ 1 / 100) := by
  refine ⟨_, decode_encode p, by simp, by simp, by simp, by simp, by simp,
    ?_, ?_, ?_, ?_, ?_⟩
  · intro t htc
    obtain ⟨h1, h2⟩ := ht t htc
    rw [Option.mem_def] at htc
    refine ⟨((clamp_i16 (pyRound (t * 100)) : ℤ) : ℚ) / 100, by simp [htc], ?_⟩
    rw [clamp_i16_of_range h1 h2]
    exact div100_abs_le (pyRound_abs_le (t * 100))
  · intro x hx
    obtain ⟨n, rfl, hn⟩ := hp x hx
    rw [Option.mem_def] at hx
    have hcl : clamp_u32 (ratTrunc ((n : ℕ) : ℚ)) = (n : ℤ) := by
      rw [ratTrunc_natCast]
      exact clamp_u32_of_range (by positivity) (by exact_mod_cast Nat.lt_succ_iff.mp hn)
    simp [hx, hcl]
  · intro x hx
    obtain ⟨n, rfl, hn⟩ := hm x hx
    rw [Option.mem_def] at hx
    have hcl : clamp_u32 (ratTrunc ((n : ℕ) : ℚ)) = (n : ℤ) := by
      rw [ratTrunc_natCast]
      exact clamp_u32_of_range (by positivity) (by exact_mod_cast Nat.lt_succ_iff.mp hn)
    simp [hx, hcl]
  · intro x hx
    obtain ⟨n, rfl, hn⟩ := ha x hx
    rw [Option.mem_def] at hx
    have hcl : clamp_u32 (ratTrunc ((n : ℕ) : ℚ)) = (n : ℤ) := by
      rw [ratTrunc_natCast]
      exact clamp_u32_of_range (by positivity) (by exact_mod_cast Nat.lt_succ_iff.mp hn)
    simp [hx, hcl]
  · intro u huv
    obtain ⟨h1, h2⟩ := hu u huv
    rw [Option.mem_def] at huv
    refine ⟨(((clamp_u16 (pyRound (u * 100))).toNat : ℕ) : ℚ) / 100,
      by simp [huv], ?_⟩
    rw [clamp_u16_of_range h1 h2]
    have hc : (((pyRound (u * 100)).toNat : ℕ) : ℚ) = ((pyRound (u * 100) : ℤ) : ℚ) := by
      have := Int.toNat_of_nonneg h1
      exact_mod_cast congrArg (fun z : ℤ => ((z : ℤ) : ℚ)) this
    rw [hc]
    exact div100_abs_le (pyRound_abs_le (u * 100))

/-- Witness for C1: the spec's end-to-end packet satisfies every
hypothesis and round-trips. -/
theorem leos_c1_roundtrip_witness :
    ∃ flds : DecodedFields,
      decode_packet samplePacket.encode =
        .ok { seq := samplePacket.seq % 65536,
              unix_s := clamp_u32 samplePacket.unix_s } flds ∧
      flds.temp_c.isSome = samplePacket.temp_c.isSome ∧
      flds.pressure_pa.isSome = samplePacket.pressure_pa.isSome ∧
      flds.pm25_env.isSome = samplePacket.pm25_env.isSome ∧
      flds.aqi_pm25_us.isSome = samplePacket.aqi_pm25_us.isSome ∧
      flds.uv_uvi.isSome = samplePacket.uv_uvi.isSome ∧
      (∀ t ∈ samplePacket.temp_c, ∃ d, flds.temp_c = some d ∧ |d - t| ≤ 1 / 100) ∧
      (∀ x ∈ samplePacket.pressure_pa,
        flds.pressure_pa.map (fun n => ((n : ℕ) : ℚ)) = some x) ∧
      (∀ x ∈ samplePacket.pm25_env,
        flds.pm25_env.map (fun n => ((n : ℕ) : ℚ)) = some x) ∧
      (∀ x ∈ samplePacket.aqi_pm25_us,
        flds.aqi_pm25_us.map (fun n => ((n : ℕ) : ℚ)) = some x) ∧
      (∀ u ∈ samplePacket.uv_uvi, ∃ d, flds.uv_uvi = some d ∧ |d - u| ≤ 1 / 100) := by
  have e20 : pyRound ((20 : ℚ) * 100) = 2000 := by
    rw [show ((20 : ℚ) * 100) = ((2000 : ℤ) : ℚ) by norm_num, pyRound_intCast]
  have e32 : pyRound ((16 / 5 : ℚ) * 100) = 320 := by
    rw [show ((16 / 5 : ℚ) * 100) = ((320 : ℤ) : ℚ) by norm_num, pyRound_intCast]
  refine leos_c1_roundtrip samplePacket ?_ ?_ ?_ ?_ ?_ <;>
    intro v hv <;> simp [samplePacket, Option.mem_def] at hv <;> subst hv
  · rw [e20]; constructor <;> norm_num
  · exact ⟨101325, by norm_num, by norm_num⟩
  · exact ⟨12, by norm_num, by norm_num⟩
  · exact ⟨45, by norm_num, by norm_num⟩
  · rw [e32]; constructor <;> norm_num

/-- C2 (corrected). `decode_packet` validates in order with reasons
"frame too short", "bad magic", "unsupported version", "unsupported msg
type", "crc mismatch" — but the minimum length is 14 bytes, not the
claimed 13, and after all five checks pass the field phase can still fail
with a non-`ValueError` struct error (never with a `ValueError`). -/
theorem leos_c2_validation (frame : List ℕ) :
    (frame.length < 14 → decode_packet frame = .invalidInput "frame too short") ∧
    (14 ≤ frame.length → frame.take 2 ≠ MAGIC →
      decode_packet frame = .invalidInput "bad magic") ∧
    (14 ≤ frame.length → frame.take 2 = MAGIC → frame.getD 2 0 ≠ VERSION →
      decode_packet frame = .invalidInput "unsupported version") ∧
    (14 ≤ frame.length → frame.take 2 = MAGIC → frame.getD 2 0 = VERSION →
      frame.getD 3 0 ≠ MSGTYPE_TELEMETRY →
      decode_packet frame = .invalidInput "unsupported msg type") ∧
    (14 ≤ frame.length → frame.take 2 = MAGIC → frame.getD 2 0 = VERSION →
      frame.getD 3 0 = MSGTYPE_TELEMETRY →
      crc16_ccitt_false ((frame.take (frame.length - 2)).drop 2)
        ≠ leVal (frame.drop (frame.length - 2)) →
      decode_packet frame = .invalidInput "crc mismatch") ∧
    (14 ≤ frame.length → frame.take 2 = MAGIC → frame.getD 2 0 = VERSION →
      frame.getD 3 0 = MSGTYPE_TELEMETRY →
      crc16_ccitt_false ((frame.take (frame.length - 2)).drop 2)
        = leVal (frame.drop (frame.length - 2)) →
      isInvalidInput (decode_packet frame) = false) := by
  refine ⟨?_, ?_, ?_, ?_, ?_, ?_⟩
  · intro h
    rw [decode_packet, if_pos (by omega)]
  · intro h hm
    rw [decode_packet, if_neg (by omega), if_pos hm]
  · intro h hm hv
    rw [decode_packet, if_neg (by omega), if_neg (by simp [hm])]
    simp only [hv]
    rw [if_pos (by trivial)]
  · intro h hm hv ht
    rw [decode_packet, if_neg (by omega), if_neg (by simp [hm])]
    simp only [hv, ht]
    rw [if_neg (by simp), if_pos (by trivial)]
  · intro h hm hv ht hc
    rw [decode_packet, if_neg (by omega), if_neg (by simp [hm])]
    simp only [hv, ht]
    rw [if_neg (by simp), if_neg (by simp), if_pos (by trivial)]
  · intro h hm hv ht hc
    rw [decode_packet, if_neg (by omega), if_neg (by simp [hm])]
    simp only [hv, ht, hc]
    rw [if_neg (by simp), if_neg (by simp), if_neg (by simp)]
    cases hd : decodeFields (leVal ((frame.drop 10).take 2)) (frame.drop 12) <;>
      simp [hd, isInvalidInput]

/-- Witness for C2's amended validation cascade: the empty frame is too
short. -/
theorem leos_c2_validation_witness :
    decode_packet [] = .invalidInput "frame too short" :=
  (leos_c2_validation []).1 (by simp)

set_option maxRecDepth 100000 in
/-- Counterexample to C2 as stated: a 13-byte frame with good magic,
version, type and checksum is rejected by the code with "frame too short"
even though all five of the claim's checks (with its 13-byte minimum)
pass, so the claim's description predicts a successful decode and the
code raises `ValueError`. -/
theorem leos_c2_counterexample : c2ClaimAt c2Frame13 = false := by decide

/-- C3 (confirmed). Every frame is `MAGIC`, then the 10-byte header,
then the payload listing exactly the present fields in the fixed order
temp, pressure, pm25_env, aqi_pm25_us, uv (never reordered for any
subset), then the 2-byte checksum; an all-absent packet encodes to
exactly 14 bytes with zero flags and empty payload, and no frame exceeds
30 bytes. -/
theorem leos_c3_layout (p : TelemetryPacket) :
    p.encode = MAGIC ++ headerBytes p ++ payloadBytes p
        ++ le16 (crc16_ccitt_false (headerBytes p ++ payloadBytes p)) ∧
    (headerBytes p).length = 10 ∧
    payloadBytes p = tempChunk p.temp_c ++ u32Chunk p.pressure_pa
        ++ u32Chunk p.pm25_env ++ u32Chunk p.aqi_pm25_us ++ uvChunk p.uv_uvi ∧
    14 ≤ p.encode.length ∧ p.encode.length ≤ 30 ∧
    (∀ s u : ℤ,
      (TelemetryPacket.encode { seq := s, unix_s := u }).length = 14 ∧
      ((TelemetryPacket.encode { seq := s, unix_s := u }).drop 10).take 2 = [0, 0] ∧
      payloadBytes { seq := s, unix_s := u } = []) ∧
    (∀ (s u : ℤ) (x v : ℚ),
      ((TelemetryPacket.encode
          { seq := s, unix_s := u, pressure_pa := some x, uv_uvi := some v }).drop 12).take 4
        = le32 (clamp_u32 (ratTrunc x)).toNat ∧
      ((TelemetryPacket.encode
          { seq := s, unix_s := u, pressure_pa := some x, uv_uvi := some v }).drop 16).take 2
        = le16 (clamp_u16 (pyRound (v * 100))).toNat) := by
  refine ⟨rfl, headerBytes_length p, rfl, ?_, ?_, ?_, ?_⟩
  · rw [encode_length]; omega
  · rw [encode_length]
    have := payloadBytes_length_le p
    omega
  · intro s u
    refine ⟨?_, ?_, rfl⟩
    · rw [encode_length]
      simp [payloadBytes]
    · rw [encode_flagBytes]
      simp [flagsOf]
      rfl
  · intro s u x v
    constructor
    · rw [encode_drop12]
      simp only [payloadBytes, tempChunk_none, u32Chunk_none, uvChunk_none,
        u32Chunk_some, uvChunk_some, List.nil_append, List.append_assoc]
      exact List.take_left' (le32_length _)
    · rw [show (16 : ℕ) = 12 + 4 from rfl, ← List.drop_drop, encode_drop12]
      simp only [payloadBytes, tempChunk_none, u32Chunk_none, uvChunk_none,
        u32Chunk_some, uvChunk_some, List.nil_append, List.append_assoc]
      rw [List.drop_left' (le32_length _)]
      exact List.take_left' (le16_length _)

/-! ## CRC spec-equivalence lemmas -/

theorem crcShift_eq_spec (c : ℕ) : crcShift c = crcSpecShift c := by
  unfold crcShift crcSpecShift
  have htb : (c &&& 0x8000 ≠ 0) = (c.testBit 15 = true) := by
    rw [show (0x8000 : ℕ) = 2 ^ 15 by norm_num, Nat.and_two_pow c 15]
    cases c.testBit 15 <;> simp
  have hm : ∀ x : ℕ, x &&& 0xFFFF = x % 65536 := fun x => by
    rw [show (0xFFFF : ℕ) = 2 ^ 16 - 1 by norm_num,
      show (65536 : ℕ) = 2 ^ 16 by norm_num]
    exact Nat.and_pow_two_sub_one_eq_mod x 16
  have hsl : c <<< 1 = c * 2 := by
    rw [Nat.shiftLeft_eq, pow_one]
  simp only [htb, hm, hsl]

theorem crcSpecRounds_eq (n c : ℕ) : crcSpecRounds n c = crcShift^[n] c := by
  induction n generalizing c with
  | zero => rfl
  | succ m ih =>
      rw [crcSpecRounds, ih, ← crcShift_eq_spec, Function.iterate_succ_apply]

theorem crcByte_eq_spec (c b : ℕ) : crcByte c b = crcSpecRounds 8 (c ^^^ b * 256 % 65536) := by
  rw [crcByte, crcSpecRounds_eq]
  congr 1
  rw [Nat.shiftLeft_eq, show (2 : ℕ) ^ 8 = 256 from rfl,
    show (0xFFFF : ℕ) = 2 ^ 16 - 1 by norm_num,
    Nat.and_pow_two_sub_one_eq_mod]

theorem crcSpecAux_foldl (data : List ℕ) : ∀ c : ℕ,
    crcSpecAux c data = data.foldl crcByte c := by
  induction data with
  | nil => intro c; rfl
  | cons b rest ih =>
      intro c
      rw [crcSpecAux, ih, List.foldl_cons, crcByte_eq_spec]

/-- C4 (confirmed). `crc16_ccitt_false` computes exactly the CRC the
spec describes (init `0xFFFF`, per-byte XOR into the high bits, eight
shift-and-conditionally-XOR-`0x1021` steps masked to 16 bits, no final
XOR, no reflection), returns `0xFFFF` on empty input, and every encoded
frame's trailing 2 bytes are this function applied to exactly the bytes
from the version field through the end of the payload. -/
theorem leos_c4_crc :
    (∀ data : List ℕ, crc16_ccitt_false data = crcSpec data) ∧
    crc16_ccitt_false [] = 0xFFFF ∧
    (∀ p : TelemetryPacket,
      p.encode.drop (p.encode.length - 2)
        = le16 (crc16_ccitt_false ((p.encode.take (p.encode.length - 2)).drop 2))) := by
  refine ⟨?_, rfl, ?_⟩
  · intro data
    rw [crc16_ccitt_false, crcSpec, crcSpecAux_foldl]
  · intro p
    rw [encode_crcBytes, encode_body]

/-- C5 (confirmed). Numeric encodings: `temp_c` is stored as
`round(temp_c*100)` clamped to int16; the three unsigned readings are
clamped independently to uint32 (`-5 ↦ 0`, `5000000000 ↦ 4294967295`);
`uv_uvi` is `round(uv_uvi*100)` clamped to uint16; `unix_s` is clamped
(not wrapped) to uint32; `seq` is taken modulo 65536 (`65536 ↦ 0`,
`-1 ↦ 65535`). -/
theorem leos_c5_numeric (p : TelemetryPacket) :
    ((p.encode.drop 4).take 2 = le16 (p.seq % 65536).toNat) ∧
    ((p.encode.drop 6).take 4 = le32 (clamp_u32 p.unix_s).toNat) ∧
    (∀ t ∈ p.temp_c,
      (p.encode.drop 12).take 2 = packI16 (clamp_i16 (pyRound (t * 100)))) ∧
    (∀ (s u : ℤ) (x : ℚ),
      ((TelemetryPacket.encode { seq := s, unix_s := u, pressure_pa := some x }).drop 12).take 4
        = le32 (clamp_u32 (ratTrunc x)).toNat) ∧
    (∀ (s u : ℤ) (v : ℚ),
      ((TelemetryPacket.encode { seq := s, unix_s := u, uv_uvi := some v }).drop 12).take 2
        = le16 (clamp_u16 (pyRound (v * 100))).toNat) ∧
    clamp_u32 (-5) = 0 ∧ clamp_u32 5000000000 = 4294967295 ∧
    clamp_u16 70000 = 65535 ∧ clamp_u32 4294967301 = 4294967295 ∧
    ((65536 : ℤ) % 65536).toNat = 0 ∧ ((-1 : ℤ) % 65536).toNat = 65535 := by
  refine ⟨encode_seqBytes p, encode_unixBytes p, ?_, ?_, ?_,
    by decide, by decide, by decide, by decide, by decide, by decide⟩
  · intro t htc
    rw [Option.mem_def] at htc
    rw [encode_drop12]
    simp only [payloadBytes, htc, tempChunk_some, List.append_assoc]
    exact List.take_left' (packI16_length _)
  · intro s u x
    rw [encode_drop12]
    simp only [payloadBytes, tempChunk_none, u32Chunk_none, uvChunk_none,
      u32Chunk_some, List.nil_append, List.append_assoc]
    exact List.take_left' (le32_length _)
  · intro s u v
    rw [encode_drop12]
    simp only [payloadBytes, tempChunk_none, u32Chunk_none, uvChunk_none,
      uvChunk_some, List.nil_append, List.append_assoc]
    exact List.take_left' (le16_length _)

/-- Witness for C5: the temperature conjunct applied to the spec's sample
packet, together with one of the concrete clamping facts. -/
theorem leos_c5_numeric_witness :
    (samplePacket.encode.drop 12).take 2
      = packI16 (clamp_i16 (pyRound ((20 : ℚ) * 100))) ∧
    clamp_u32 (-5) = 0 := by
  obtain ⟨-, -, h3, -, -, h6, -⟩ := leos_c5_numeric samplePacket
  exact ⟨h3 20 rfl, h6⟩

/-- C6 (confirmed). `encode` is total and well formed on every input
packet: it always produces a frame of between 14 and 30 bytes whose
entries are all bytes, with clamping and wrapping absorbing any
out-of-range value. -/
theorem leos_c6_total (p : TelemetryPacket) :
    14 ≤ p.encode.length ∧ p.encode.length ≤ 30 ∧ ∀ b ∈ p.encode, b < 256 := by
  refine ⟨by rw [encode_length]; omega,
    by rw [encode_length]; have := payloadBytes_length_le p; omega, ?_⟩
  intro b hb
  rw [TelemetryPacket.encode] at hb
  simp only [List.mem_append] at hb
  rcases hb with ((hb | hb) | hb) | hb
  · simp only [MAGIC, List.mem_cons, List.not_mem_nil, or_false] at hb
    rcases hb with rfl | rfl <;> norm_num
  · simp only [headerBytes, VERSION, MSGTYPE_TELEMETRY, List.mem_cons,
      List.mem_append] at hb
    rcases hb with rfl | rfl | (hb | hb) | hb
    · norm_num
    · norm_num
    · exact le16_mem_lt hb
    · exact le32_mem_lt hb
    · exact le16_mem_lt hb
  · simp only [payloadBytes, List.mem_append] at hb
    rcases hb with (((hb | hb) | hb) | hb) | hb
    · rcases ht : p.temp_c with - | t
      · rw [ht] at hb; simp at hb
      · rw [ht] at hb
        exact le16_mem_lt hb
    · rcases hx : p.pressure_pa with - | x
      · rw [hx] at hb; simp at hb
      · rw [hx] at hb
        exact le32_mem_lt hb
    · rcases hx : p.pm25_env with - | x
      · rw [hx] at hb; simp at hb
      · rw [hx] at hb
        exact le32_mem_lt hb
    · rcases hx : p.aqi_pm25_us with - | x
      · rw [hx] at hb; simp at hb
      · rw [hx] at hb
        exact le32_mem_lt hb
    · rcases hv : p.uv_uvi with - | v
      · rw [hv] at hb; simp at hb
      · rw [hv] at hb
        exact le16_mem_lt hb
  · exact le16_mem_lt hb

/-- Witness for C6: a concrete byte of a concrete frame is below 256. -/
theorem leos_c6_total_witness :
    (170 : ℕ) < 256 :=
  (leos_c6_total { seq := 1, unix_s := 0 }).2.2 170 (by decide)

/-! ## Decode-result shape lemmas -/

theorem readField_isSome {bit k : ℕ} {rest : List ℕ} {o : Option ℕ}
    {r' : List ℕ} (h : readField bit k rest = some (o, r')) :
    o.isSome ↔ bit ≠ 0 := by
  unfold readField at h
  by_cases hb : bit ≠ 0
  · rw [if_pos hb] at h
    unfold takeLE at h
    by_cases hk : k ≤ rest.length
    · rw [if_pos hk] at h
      simp only [Option.map_some'] at h
      obtain ⟨rfl, rfl⟩ := Prod.mk.inj (Option.some.inj h)
      simpa using hb
    · rw [if_neg hk] at h
      simp at h
  · rw [if_neg hb] at h
    obtain ⟨rfl, rfl⟩ := Prod.mk.inj (Option.some.inj h)
    simpa using hb

theorem decodeFields_isSome {flags : ℕ} {rest : List ℕ} {f : DecodedFields}
    (h : decodeFields flags rest = some f) :
    (f.temp_c.isSome ↔ flags &&& F_TEMP ≠ 0) ∧
    (f.pressure_pa.isSome ↔ flags &&& F_PRESSURE ≠ 0) ∧
    (f.pm25_env.isSome ↔ flags &&& F_AIR_PM25 ≠ 0) ∧
    (f.aqi_pm25_us.isSome ↔ flags &&& F_AIR_AQI25 ≠ 0) ∧
    (f.uv_uvi.isSome ↔ flags &&& F_UV ≠ 0) := by
  unfold decodeFields at h
  split at h
  · exact absurd h (by simp)
  rename_i t r1 h1
  split at h
  · exact absurd h (by simp)
  rename_i pr r2 h2
  split at h
  · exact absurd h (by simp)
  rename_i pm r3 h3
  split at h
  · exact absurd h (by simp)
  rename_i aq r4 h4
  split at h
  · exact absurd h (by simp)
  rename_i uv r5 h5
  obtain rfl := Option.some.inj h
  refine ⟨?_, ?_, ?_, ?_, ?_⟩
  · simpa using readField_isSome h1
  · simpa using readField_isSome h2
  · simpa using readField_isSome h3
  · simpa using readField_isSome h4
  · simpa using readField_isSome h5

/-- C7 (confirmed). Whenever `decode_packet` returns normally, the
returned packet record carries only `seq` and `unix_s` — all five
optional readings of the record are `None` regardless of the flag bits —
and the field mapping has an entry exactly for each field whose flag bit
(in the frame's flags word at offset 10) is set. -/
theorem leos_c7_asymmetry (frame : List ℕ) (pkt : TelemetryPacket)
    (flds : DecodedFields) (h : decode_packet frame = .ok pkt flds) :
    pkt.temp_c = none ∧ pkt.pressure_pa = none ∧ pkt.pm25_env = none ∧
    pkt.aqi_pm25_us = none ∧ pkt.uv_uvi = none ∧
    (flds.temp_c.isSome ↔ leVal ((frame.drop 10).take 2) &&& F_TEMP ≠ 0) ∧
    (flds.pressure_pa.isSome ↔ leVal ((frame.drop 10).take 2) &&& F_PRESSURE ≠ 0) ∧
    (flds.pm25_env.isSome ↔ leVal ((frame.drop 10).take 2) &&& F_AIR_PM25 ≠ 0) ∧
    (flds.aqi_pm25_us.isSome ↔ leVal ((frame.drop 10).take 2) &&& F_AIR_AQI25 ≠ 0) ∧
    (flds.uv_uvi.isSome ↔ leVal ((frame.drop 10).take 2) &&& F_UV ≠ 0) := by
  simp only [decode_packet] at h
  split at h
  · exact absurd h (by simp)
  split at h
  · exact absurd h (by simp)
  split at h
  · exact absurd h (by simp)
  split at h
  · exact absurd h (by simp)
  split at h
  · exact absurd h (by simp)
  split at h
  · exact absurd h (by simp)
  next f hf =>
    rw [DecodeResult.ok.injEq] at h
    obtain ⟨hpk, hfl⟩ := h
    subst hpk
    subst hfl
    obtain ⟨i1, i2, i3, i4, i5⟩ := decodeFields_isSome hf
    exact ⟨rfl, rfl, rfl, rfl, rfl, i1, i2, i3, i4, i5⟩

/-- Witness for C7: the decoded sample frame's record has all five
optional readings absent. -/
theorem leos_c7_asymmetry_witness :
    ∃ (pkt : TelemetryPacket) (flds : DecodedFields),
      decode_packet sampleFrame = .ok pkt flds ∧ pkt.temp_c = none ∧
      pkt.pressure_pa = none ∧ pkt.pm25_env = none ∧ pkt.aqi_pm25_us = none ∧
      pkt.uv_uvi = none := by
  have hdec : decode_packet sampleFrame =
      .ok { seq := samplePacket.seq % 65536, unix_s := clamp_u32 samplePacket.unix_s }
        { temp_c := samplePacket.temp_c.map
            (fun t => (((clamp_i16 (pyRound (t * 100)) : ℤ) : ℚ) / 100)),
          pressure_pa := samplePacket.pressure_pa.map (fun x => (clamp_u32 (ratTrunc x)).toNat),
          pm25_env := samplePacket.pm25_env.map (fun x => (clamp_u32 (ratTrunc x)).toNat),
          aqi_pm25_us := samplePacket.aqi_pm25_us.map (fun x => (clamp_u32 (ratTrunc x)).toNat),
          uv_uvi := samplePacket.uv_uvi.map
            (fun u => (((clamp_u16 (pyRound (u * 100))).toNat : ℚ) / 100)) } :=
    decode_encode samplePacket
  obtain ⟨h1, h2, h3, h4, h5, -⟩ := leos_c7_asymmetry sampleFrame _ _ hdec
  exact ⟨_, _, hdec, h1, h2, h3, h4, h5⟩

/-- The publisher's counter always equals the cycle number modulo 65536. -/
theorem seqAt_mod (n : ℕ) : seqAt n = n % 65536 := by
  induction n with
  | zero => rfl
  | succ m ih =>
      rw [seqAt, ih, show (0xFFFF : ℕ) = 2 ^ 16 - 1 by norm_num,
        Nat.and_pow_two_sub_one_eq_mod, show (2 : ℕ) ^ 16 = 65536 by norm_num]
      omega

/-- C8 (confirmed). The radio publish loop's counter starts at 0 and
is incremented modulo 65536 before each frame is built, so the `n`-th
transmitted frame carries sequence number `n % 65536` in its SEQ field
(the first frame carries 1, the second 2, and the counter wraps after
65535). -/
theorem leos_c8_publisher :
    (∀ n : ℕ, seqAt n = n % 65536) ∧ seqAt 1 = 1 ∧ seqAt 2 = 2 ∧
    (∀ (cache : ℕ → Latest) (now : ℕ → ℤ) (n : ℕ),
      ((publishedFrame cache now n).drop 4).take 2 = le16 (n % 65536)) := by
  refine ⟨seqAt_mod, by rw [seqAt_mod], by rw [seqAt_mod], ?_⟩
  intro cache now n
  unfold publishedFrame build_from_latest
  rw [encode_seqBytes]
  congr 1
  rw [seqAt_mod]
  have hm : n % 65536 < 65536 := Nat.mod_lt _ (by norm_num)
  have h1 : ((n % 65536 : ℕ) : ℤ) % 65536 = ((n % 65536 : ℕ) : ℤ) :=
    Int.emod_eq_of_lt (by positivity) (by exact_mod_cast hm)
  rw [h1, Int.toNat_natCast]

/-- C9 (corrected). The bridge tasks: temperature writes
`temp_c = kelvin − 273.15` (296.15 K yields exactly 23 °C), the pressure
task writes the raw Pascal value with no integer coercion (the coercion
the claim describes happens later, in `encode`), the air-quality task
writes `pm25_env` and `aqi_pm25_us` each coerced to integer, the UV task
writes `uv_uvi` as a float unchanged — and each task touches only its own
cache field(s). -/
theorem leos_c9_bridge (l : Latest) (k p pm aq u : ℚ) :
    (run_temp_step l k).temp_c = some (k - 27315 / 100) ∧
    (run_temp_step l k).pressure_pa = l.pressure_pa ∧
    (run_temp_step l k).air_pm25_env = l.air_pm25_env ∧
    (run_temp_step l k).air_aqi_pm25_us = l.air_aqi_pm25_us ∧
    (run_temp_step l k).uv_uvi = l.uv_uvi ∧
    (run_pressure_step l p).pressure_pa = some p ∧
    (run_pressure_step l p).temp_c = l.temp_c ∧
    (run_pressure_step l p).air_pm25_env = l.air_pm25_env ∧
    (run_pressure_step l p).air_aqi_pm25_us = l.air_aqi_pm25_us ∧
    (run_pressure_step l p).uv_uvi = l.uv_uvi ∧
    (run_air_step l pm aq).air_pm25_env = some ((ratTrunc pm : ℤ) : ℚ) ∧
    (run_air_step l pm aq).air_aqi_pm25_us = some ((ratTrunc aq : ℤ) : ℚ) ∧
    (run_air_step l pm aq).temp_c = l.temp_c ∧
    (run_air_step l pm aq).pressure_pa = l.pressure_pa ∧
    (run_air_step l pm aq).uv_uvi = l.uv_uvi ∧
    (run_uv_step l u).uv_uvi = some u ∧
    (run_uv_step l u).temp_c = l.temp_c ∧
    (run_uv_step l u).pressure_pa = l.pressure_pa ∧
    (run_uv_step l u).air_pm25_env = l.air_pm25_env ∧
    (run_uv_step l u).air_aqi_pm25_us = l.air_aqi_pm25_us ∧
    (∃ d, (run_temp_step l (5923 / 20)).temp_c = some d ∧ |d - 23| ≤ 1 / 100) := by
  refine ⟨rfl, rfl, rfl, rfl, rfl, rfl, rfl, rfl, rfl, rfl, rfl, rfl, rfl,
    rfl, rfl, rfl, rfl, rfl, rfl, rfl, ⟨5923 / 20 - 27315 / 100, rfl, by norm_num⟩⟩

/-- Counterexample to C9 as stated: a pressure message carrying the
non-integral Pascal value 3/2 is stored in the cache as 3/2 itself, not
as the integer 1 the claim's "coerced to integer" predicts. -/
theorem leos_c9_counterexample :
    (run_pressure_step
        { temp_c := none, pressure_pa := none, air_pm25_env := none,
          air_aqi_pm25_us := none, uv_uvi := none } (3 / 2)).pressure_pa
      ≠ some ((ratTrunc (3 / 2 : ℚ) : ℤ) : ℚ) := by
  have hf : ratTrunc (3 / 2 : ℚ) = 1 := by
    rw [ratTrunc, if_pos (by norm_num)]
    exact Int.floor_eq_iff.mpr ⟨by norm_num, by norm_num⟩
  rw [hf, run_pressure_step]
  simp only [ne_eq, Option.some.injEq]
  norm_num

/-- Field decoding of a frame whose flags promise a temperature field but
whose payload is empty reads the two checksum bytes as the field. -/
theorem decodeFields_one_crc (c : ℕ) (hc : c < 65536) :
    decodeFields 1 (le16 c) = some { temp_c := some ((sval c : ℚ) / 100) } := by
  have h1 : readField 1 2 (le16 c ++ []) = some (some (leVal (le16 c)), []) :=
    readField_pos (by norm_num) (le16_length c) []
  rw [List.append_nil] at h1
  unfold decodeFields
  rw [show (1 : ℕ) &&& F_TEMP = 1 from by decide,
    show (1 : ℕ) &&& F_PRESSURE = 0 from by decide,
    show (1 : ℕ) &&& F_AIR_PM25 = 0 from by decide,
    show (1 : ℕ) &&& F_AIR_AQI25 = 0 from by decide,
    show (1 : ℕ) &&& F_UV = 0 from by decide]
  simp only [h1, readField_zero, Option.map_some', Option.map_none']
  rw [leVal_le16 hc]

set_option maxRecDepth 1000000 in
/-- C10 (confirmed). `decode_packet` never checks that the frame
length matches the payload the flags promise: `c10FrameA` passes all five
validations and decodes "successfully", silently returning the checksum
bytes as the temperature value — a frame no `encode` call can produce —
while `c10FrameB` (flags promising 4 bytes with 2 remaining) fails with
the struct error, not the specified Invalid-Input `ValueError`. -/
theorem leos_c10_missing_length_check :
    (∃ (pkt : TelemetryPacket) (flds : DecodedFields),
      decode_packet c10FrameA = .ok pkt flds ∧
      flds.temp_c = some ((sval (crc16_ccitt_false c10BodyA) : ℚ) / 100)) ∧
    (∀ p : TelemetryPacket, (p.encode == c10FrameA) = false) ∧
    decode_packet c10FrameB = .structError := by
  refine ⟨?_, ?_, by decide⟩
  · refine ⟨{ seq := 0, unix_s := 0 },
      { temp_c := some ((sval (crc16_ccitt_false c10BodyA) : ℚ) / 100) }, ?_, rfl⟩
    simp only [decode_packet]
    rw [if_neg (show ¬(c10FrameA.length < 2 + 1 + 1 + 2 + 4 + 2 + 2) by decide)]
    rw [if_neg (show ¬(c10FrameA.take 2 ≠ MAGIC) by decide)]
    rw [if_neg (show ¬(c10FrameA.getD 2 0 ≠ VERSION) by decide)]
    rw [if_neg (show ¬(c10FrameA.getD 3 0 ≠ MSGTYPE_TELEMETRY) by decide)]
    rw [if_neg (show
      ¬(crc16_ccitt_false ((c10FrameA.take (c10FrameA.length - 2)).drop 2)
        ≠ leVal (c10FrameA.drop (c10FrameA.length - 2))) by decide)]
    rw [show leVal ((c10FrameA.drop 10).take 2) = 1 from by decide,
      show c10FrameA.drop 12 = le16 (crc16_ccitt_false c10BodyA) from by decide,
      decodeFields_one_crc _ (crc16_lt _)]
    rw [show leVal ((c10FrameA.drop 4).take 2) = 0 from by decide,
      show leVal ((c10FrameA.drop 6).take 4) = 0 from by decide]
    simp
  · intro p
    rw [beq_eq_false_iff_ne]
    intro h
    have hlen : p.encode.length = c10FrameA.length := by rw [h]
    rw [encode_length, show c10FrameA.length = 14 from by decide] at hlen
    have hpl : (payloadBytes p).length = 0 := by omega
    rw [payloadBytes_length] at hpl
    have hall : p.temp_c = none ∧ p.pressure_pa = none ∧ p.pm25_env = none ∧
        p.aqi_pm25_us = none ∧ p.uv_uvi = none := by
      refine ⟨?_, ?_, ?_, ?_, ?_⟩ <;>
        (by_contra hc
         have hc2 : Option.isSome _ = true := Option.ne_none_iff_isSome.mp hc
         simp only [hc2, if_true] at hpl
         split_ifs at hpl <;> omega)
    obtain ⟨e1, e2, e3, e4, e5⟩ := hall
    have hflz : flagsOf p = 0 := by
      simp [flagsOf, e1, e2, e3, e4, e5]
    have hfb := encode_flagBytes p
    rw [h, hflz] at hfb
    rw [show (c10FrameA.drop 10).take 2 = [1, 0] from by decide] at hfb
    exact absurd hfb (by decide)

end LeosFC
